import Mathlib

/-!
Verification of the hdlmake core against its specification.

This file gives a shallow embedding of the three core source files of the
repository (`hdlmake/action/commands.py`, `hdlmake/module/core.py`,
`hdlmake/srcfile.py`) and proves the frozen claims about them.

Conventions of the embedding:
* Python lists used as stacks (`list.pop()` pops the last element,
  `list.append` pushes at the end) are represented as Lean lists in
  reversed order: the head of the Lean list is the next element popped.
* The filesystem and the version-control backends are external
  collaborators; they appear as explicit parameters (oracles).
* Module identity is keyed by the resolved path, as the specification
  states; the module pool (which lives outside the three embedded source
  files) is modelled from the spec where noted.
-/

namespace HdlmakeSpec

/-- Source kinds of a module, from the `source` enum of the data model
(`git`, `gitsm`, `svn`, `local`).  `local` is a Lean keyword, hence
`localSrc`. -/
inductive SourceKind where
  | git
  | gitsm
  | svn
  | localSrc
deriving DecidableEq, Repr

/-- A module descriptor, holding the attributes of `ModuleConfig` that the
fetch resolver reads: origin `url`, resolved `path`, `source` kind, and the
manifest dictionary (used only for the fetch hooks).  Following the spec,
module identity is keyed by `path`; the `isfetched` flag of the Python
object is represented by membership of `path` in the `fetched` component of
the resolver state. -/
structure Module where
  url : String
  path : String
  source : SourceKind
  manifestDict : Option (List (String × String)) := none
deriving DecidableEq, Repr

/-- The environment of a fetch run: `children p` is the list of child
module descriptors declared by the manifest of the module at path `p`
(the result of `module.parse_manifest()` / `module.submodules()`), and
`fetchOk p` is the boolean outcome of the version-control backend fetch
for the module at path `p` (the `fetch(module) -> bool` contract of
FetchBackend). -/
structure FetchEnv where
  children : String → List Module
  fetchOk : String → Bool

/-- The fatal error raised by `_fetch_module` on backend failure,
mirroring `raise Exception("Unable to fetch module %s", str(module.url))`:
the exception carries the format string and the offending URL. -/
structure FetchErr where
  fmt : String
  arg : String
deriving DecidableEq, Repr

/-- The state threaded through the `_fetch_all` work loop.
`queue` is the Python `fetch_queue` in reversed order (head = next pop),
`fetched` is the set of resolved paths whose modules are fetched,
`pool` is the module set `self.manifests` in discovery order,
`calls` is the log of backend fetch invocations (by resolved path), and
`err` is the pending fatal error, if any (a raised exception halts the
loop). -/
structure FetchState where
  queue : List Module
  fetched : List String
  pool : List Module
  calls : List String
  err : Option FetchErr
deriving DecidableEq, Repr

/-- Modelled from the spec: registration of a discovered module in the
module set, "avoiding duplicate registration if another in-flight branch
already discovered the identical path".  The pool code (`Action._add` /
`pool.new_module`) is not among the embedded source files; the spec keys
module identity by resolved path. -/
def registerModule (pool : List Module) (m : Module) : List Module :=
  if pool.any (fun q => q.path == m.path) then pool else pool ++ [m]

/-- Processing of one discovered child in the loop body of `_fetch_all`:
an unfetched child is registered (`self._add(mod)`) and pushed onto the
fetch queue; an already fetched child is recorded in the module set but
not queued (spec: "children already fetched are recorded but not
re-queued"). -/
def processChild (fetched : List String) (st : List Module × List Module)
    (c : Module) : List Module × List Module :=
  if fetched.contains c.path then
    (registerModule st.1 c, st.2)
  else
    (registerModule st.1 c, c :: st.2)

/-- Processing of the whole child list of a popped module (the
`for mod in new_modules` loop of `_fetch_all`). -/
def processChildren (fetched : List String) (children : List Module)
    (pool queue : List Module) : List Module × List Module :=
  children.foldl (processChild fetched) (pool, queue)

/-- One iteration of the `while len(fetch_queue) > 0` loop of
`ActionCore._fetch_all`.  Pop a module; if it is already fetched, read its
cached child list; otherwise invoke the backend (`_fetch_module`): on
success the module becomes fetched and its manifest is parsed for
children, on failure the fatal exception is recorded and the loop halts.
A state carrying an error is left untouched. -/
def step (env : FetchEnv) (st : FetchState) : FetchState :=
  match st.err with
  | some _ => st
  | none =>
    match st.queue with
    | [] => st
    | cur :: rest =>
      if st.fetched.contains cur.path then
        let pq := processChildren st.fetched (env.children cur.path) st.pool rest
        { st with queue := pq.2, pool := pq.1 }
      else if env.fetchOk cur.path then
        let fetched2 := cur.path :: st.fetched
        let pq := processChildren fetched2 (env.children cur.path) st.pool rest
        { queue := pq.2, fetched := fetched2, pool := pq.1,
          calls := st.calls ++ [cur.path], err := none }
      else
        { st with
          queue := rest,
          calls := st.calls ++ [cur.path],
          err := some (FetchErr.mk "Unable to fetch module %s" cur.url) }

/-- The `_fetch_all` work loop, run for `fuel` iterations (the loop body
is the identity once the queue is empty or an error was raised, so any
sufficiently large fuel gives the terminal state). -/
def fetchAll (env : FetchEnv) : Nat → FetchState → FetchState
  | 0, st => st
  | fuel + 1, st => fetchAll env fuel (step env st)

/-- Membership of a resolved path in a module set. -/
def pathRegistered (pool : List Module) (p : String) : Bool :=
  pool.any (fun q => q.path == p)

/-- The invariant carried by the fetch loop: the backend call log has no
duplicate path, and while no error has been raised every called path is
recorded as fetched. -/
def fetchInv (st : FetchState) : Prop :=
  st.calls.Nodup ∧ (st.err = none → ∀ p ∈ st.calls, st.fetched.contains p = true)

/-- Boolean success test for `Except` results. -/
def exceptIsOk {ε α : Type} : Except ε α → Bool
  | Except.ok _ => true
  | Except.error _ => false

/-- Parsed components of a remote url, the result of
`path_mod.url_parse(url)`: url, branch, revision and library override. -/
structure RemoteUrlParts where
  url : String
  branch : Option String
  revision : Option String
  library_overide : Option String
deriving DecidableEq, Repr

/-- Modelled from the spec: the external path utilities used by
`ModuleConfig.init_config` (`hdlmake.util.path` and `os.path`, which are
not among the embedded source files).  The spec only requires that the
resolved path be deterministic from `(url, branch, libraryOverride,
fetchto-root)`, so the utilities are explicit function parameters. -/
structure PathUtil where
  svn_parse : String → String × Option String
  url_parse : String → RemoteUrlParts
  svn_basename : String → String
  url_basename : String → String
  relpath : String → String
  abspath_join : String → String → String

/-- The filesystem oracle: `os.path.exists` and `os.listdir`. -/
structure FileSys where
  pathExists : String → Bool
  listdir : String → List String

/-- The `module_args` record passed to `ModuleConfig.init_config`. -/
structure ModuleArgs where
  parent : Option String
  url : String
  source : SourceKind
  fetchto : String
deriving DecidableEq, Repr

/-- The fields of `ModuleConfig` assigned by `init_config`. -/
structure ModuleConfigState where
  source : SourceKind
  url : String
  branch : Option String
  revision : Option String
  path : String
  isfetched : Bool
  library_overide : Option String
deriving DecidableEq, Repr

/-- The configuration error raised by `init_config` for a local module
whose declared path does not exist (`Exception(Path to the local module
does not exist)`, carrying the url and the instantiating parent. -/
inductive ConfigErr where
  | localPathMissing (url : String) (parent : Option String)
deriving DecidableEq, Repr

/-- Translation of `ModuleConfig.basename`: svn urls go through `svn_basename`, all
others through `url_basename`. -/
def moduleBasename (pu : PathUtil) (source : SourceKind) (url : String) : String :=
  if source = SourceKind.svn then pu.svn_basename url else pu.url_basename url

/-- Translation of `ModuleConfig.init_config` from `hdlmake/module/core.py`.
For a non-local module the remote url is parsed, the fetch path computed,
and `isfetched` set from `os.path.exists(path) and os.listdir(path)`;
for a local module a missing path raises, otherwise `isfetched = True`. -/
def init_config (pu : PathUtil) (fs : FileSys) (args : ModuleArgs) :
    Except ConfigErr ModuleConfigState :=
  if args.source ≠ SourceKind.localSrc then
    let parts : RemoteUrlParts :=
      if args.source = SourceKind.svn then
        RemoteUrlParts.mk (pu.svn_parse args.url).1 none (pu.svn_parse args.url).2 none
      else
        pu.url_parse args.url
    let basename0 := moduleBasename pu args.source parts.url
    let basename :=
      match parts.library_overide with
      | some l => if l = "" then basename0 else basename0 ++ "-" ++ l
      | none => basename0
    let path := pu.relpath (pu.abspath_join args.fetchto basename)
    if fs.pathExists path && !(fs.listdir path).isEmpty then
      Except.ok (ModuleConfigState.mk args.source parts.url parts.branch
        parts.revision path true parts.library_overide)
    else
      Except.ok (ModuleConfigState.mk args.source parts.url parts.branch
        parts.revision path false parts.library_overide)
  else
    if fs.pathExists args.url then
      Except.ok (ModuleConfigState.mk args.source args.url none none
        (pu.relpath args.url) true none)
    else
      Except.error (ConfigErr.localPathMissing args.url args.parent)

/-- The library computation of `ModuleCore._process_manifest_universal`:
an explicit override (`library_overide is not None`) wins, then the
manifest `library` key, then the library of the parent module; the initial
value set by `ModuleCore.__init__` is `"work"`. -/
def process_manifest_universal_library (library_overide : Option String)
    (manifest_dict : List (String × String)) (parentLibrary : Option String) : String :=
  match library_overide with
  | some l => l
  | none =>
    match manifest_dict.lookup "library" with
    | some l => l
    | none =>
      match parentLibrary with
      | some pl => pl
      | none => "work"

/-- The library assignment of `SourceFile.__init__`: a falsy library
(`None` or the empty string) defaults to `"work"`. -/
def sourceFileLibrary (library : Option String) : String :=
  match library with
  | none => "work"
  | some l => if l = "" then "work" else l

/-- The library seen by a module at the bottom of a chain of manifests
processed top-down, each manifest inheriting through
`_process_manifest_universal` with no override. -/
def inheritedLibrary (rootLib : String) (dicts : List (List (String × String))) : String :=
  dicts.foldl
    (fun parentLib d => process_manifest_universal_library none d (some parentLib))
    rootLib

/-- The version-controlled source kinds tested by `ActionCore.clean`
(`mod_aux.source in [git, gitsm, svn]`). -/
def vcsSources : List SourceKind :=
  [SourceKind.git, SourceKind.gitsm, SourceKind.svn]

/-- The removal test of `ActionCore.clean`: version-controlled and
fetched. -/
def cleanPred (fetched : List String) (m : Module) : Bool :=
  vcsSources.contains m.source && fetched.contains m.path

/-- The `remove_list` of `ActionCore.clean`: the fetched, version
-controlled modules of the manifest set, reversed
(`remove_list.reverse()`), in the order their directories are removed. -/
def cleanRemoveList (fetched : List String) (manifests : List Module) : List Module :=
  (manifests.filter (cleanPred fetched)).reverse

/-- The hook guard of `ActionCore.fetch`: the module is fetched, has a
manifest dictionary, and the dictionary holds the hook key. -/
def hookQualifies (key : String) (fetched : List String) (m : Module) : Bool :=
  fetched.contains m.path &&
    (match m.manifestDict with
     | some d => (d.lookup key).isSome
     | none => false)

/-- The command a qualifying module runs:
`mod.manifest_dict.get(key, empty)`. -/
def hookCmd (key : String) (m : Module) : String :=
  match m.manifestDict with
  | some d => (d.lookup key).getD ""
  | none => ""

/-- The shell commands issued by one hook sweep of `ActionCore.fetch`
(one `os.system` call per fetched module whose manifest carries the
key, in manifest order). -/
def hookCmds (key : String) (fetched : List String) (mods : List Module) : List String :=
  mods.filterMap (fun m =>
    if fetched.contains m.path then
      match m.manifestDict with
      | some d => d.lookup key
      | none => none
    else none)

/-- Translation of `ActionCore.fetch`: the `fetch_pre_cmd` sweep over the current
manifests, then `_fetch_all`, then the `fetch_post_cmd` sweep over the
updated manifests.  `system` is the `os.system` oracle returning an exit
status; each issued command is paired with its status, which the code
discards. -/
def fetchActionRun (env : FetchEnv) (fuel : Nat) (st : FetchState)
    (system : String → Int) :
    List (String × Int) × FetchState × List (String × Int) :=
  let pre := (hookCmds "fetch_pre_cmd" st.fetched st.pool).map (fun c => (c, system c))
  let st2 := fetchAll env fuel st
  let post := (hookCmds "fetch_post_cmd" st2.fetched st2.pool).map (fun c => (c, system c))
  (pre, st2, post)

/-- The file classes of `hdlmake/srcfile.py`, one constructor per Python
class that `create_source_file` can instantiate. -/
inductive FileClass where
  | VHDLFile
  | VerilogFile
  | SVFile
  | TCLFile
  | UCFFile
  | XISEFile
  | CDCFile
  | XMPFile
  | PPRFile
  | XPRFile
  | BDFile
  | XCOFile
  | NGCFile
  | XDCFile
  | XCFFile
  | COEFile
  | MIFFile
  | RAMFile
  | VHOFile
  | BMMFile
  | VEOFile
  | XCIFile
  | SDCFile
  | LDFFile
  | LPFFile
  | PCFFile
  | EDFFile
  | PDCFile
  | WBGenFile
  | QIPFile
  | IPFile
  | QSYSFile
  | DPFFile
  | QSFFile
  | BSFFile
  | BDFFile
  | TDFFile
  | GDFFile
  | SignalTapFile
deriving DecidableEq, Repr

/-- The dictionary `XILINX_FILE_DICT`, as an association list. -/
def XILINX_FILE_DICT : List (String × FileClass) :=
  [("xise", FileClass.XISEFile), ("ise", FileClass.XISEFile),
   ("ngc", FileClass.NGCFile), ("ucf", FileClass.UCFFile),
   ("cdc", FileClass.CDCFile), ("xmp", FileClass.XMPFile),
   ("ppr", FileClass.PPRFile), ("xpr", FileClass.XPRFile),
   ("bd", FileClass.BDFile), ("xco", FileClass.XCOFile),
   ("xdc", FileClass.XDCFile), ("xcf", FileClass.XCFFile),
   ("coe", FileClass.COEFile), ("mif", FileClass.MIFFile),
   ("ram", FileClass.RAMFile), ("vho", FileClass.VHOFile),
   ("veo", FileClass.VEOFile), ("bmm", FileClass.BMMFile),
   ("xci", FileClass.XCIFile)]

/-- The dictionary `LATTICE_FILE_DICT`, as an association list. -/
def LATTICE_FILE_DICT : List (String × FileClass) :=
  [("ldf", FileClass.LDFFile), ("lpf", FileClass.LPFFile),
   ("edf", FileClass.EDFFile), ("edif", FileClass.EDFFile),
   ("edi", FileClass.EDFFile), ("edn", FileClass.EDFFile),
   ("pcf", FileClass.PCFFile)]

/-- The dictionary `MICROSEMI_FILE_DICT`, as an association list. -/
def MICROSEMI_FILE_DICT : List (String × FileClass) :=
  [("pdc", FileClass.PDCFile)]

/-- The dictionary `ALTERA_FILE_DICT`, as an association list. -/
def ALTERA_FILE_DICT : List (String × FileClass) :=
  [("stp", FileClass.SignalTapFile), ("qip", FileClass.QIPFile),
   ("ip", FileClass.IPFile), ("qsys", FileClass.QSYSFile),
   ("dpf", FileClass.DPFFile), ("qsf", FileClass.QSFFile),
   ("bsf", FileClass.BSFFile), ("bdf", FileClass.BDFFile),
   ("tdf", FileClass.TDFFile), ("gdf", FileClass.GDFFile)]

/-- Python `str.split(sep)` over characters: the list of chunks between
occurrences of the separator (never empty; `[""]` for the empty
string). -/
def splitOnChar (sep : Char) (s : List Char) : List (List Char) :=
  s.foldr
    (fun c acc =>
      if c = sep then [] :: acc
      else
        match acc with
        | [] => [[c]]
        | a :: as => (c :: a) :: as)
    [[]]

/-- The extension computed by `create_source_file`:
`tmp = path.rsplit('.'); extension = tmp[len(tmp) - 1]`, i.e. the part of
the path after its last dot (the whole path when it has no dot). -/
def extensionOf (path : String) : String :=
  String.mk ((splitOnChar '.' path.toList).getLastD [])

/-- The errors `create_source_file` can raise: a missing path
(`RuntimeError`) or an unrecognized extension (`Exception`). -/
inductive SrcFileErr where
  | emptyPath (path : String)
  | unknownExtension (path : String) (extension : String)
deriving DecidableEq, Repr

/-- The test `os.path.isabs(path)` on POSIX: the path begins with a
slash. -/
def pyIsAbs (path : String) : Bool :=
  match path.toList with
  | '/' :: _ => true
  | _ => false

/-- Translation of `create_source_file` from `hdlmake/srcfile.py`: a
relative path is first absolutized (`path = os.path.abspath(path)`,
srcfile.py:418-419; `abspath` joins with the current directory and
normalizes, so it is an oracle depending on process state), then the
chain of extension tests selects the constructed file class, ending in a
hard error for an unknown extension. -/
def create_source_file (abspath : String → String) (path : String) :
    Except SrcFileErr FileClass :=
  if path = "" then Except.error (SrcFileErr.emptyPath path)
  else
    let path2 := if pyIsAbs path then path else abspath path
    let extension := extensionOf path2
    if extension ∈ ["vhd", "vhdl", "vho"] then Except.ok FileClass.VHDLFile
    else if extension ∈ ["v", "vh", "vo", "vm"] then Except.ok FileClass.VerilogFile
    else if extension = "sv" ∨ extension = "svh" then Except.ok FileClass.SVFile
    else if extension = "wb" then Except.ok FileClass.WBGenFile
    else if extension = "tcl" then Except.ok FileClass.TCLFile
    else if extension = "sdc" then Except.ok FileClass.SDCFile
    else
      match XILINX_FILE_DICT.lookup extension with
      | some k => Except.ok k
      | none =>
        match ALTERA_FILE_DICT.lookup extension with
        | some k => Except.ok k
        | none =>
          match LATTICE_FILE_DICT.lookup extension with
          | some k => Except.ok k
          | none =>
            match MICROSEMI_FILE_DICT.lookup extension with
            | some k => Except.ok k
            | none => Except.error (SrcFileErr.unknownExtension path2 extension)

/-- The set of extensions recognized by `create_source_file`, written to
mirror its branch structure. -/
def recognizedExt (extension : String) : Bool :=
  decide (extension ∈ ["vhd", "vhdl", "vho"])
    || decide (extension ∈ ["v", "vh", "vo", "vm"])
    || decide (extension = "sv" ∨ extension = "svh")
    || decide (extension = "wb")
    || decide (extension = "tcl")
    || decide (extension = "sdc")
    || (XILINX_FILE_DICT.lookup extension).isSome
    || (ALTERA_FILE_DICT.lookup extension).isSome
    || (LATTICE_FILE_DICT.lookup extension).isSome
    || (MICROSEMI_FILE_DICT.lookup extension).isSome

/-- The kind constructed by `create_source_file`, if any. -/
def okKind (r : Except SrcFileErr FileClass) : Option FileClass :=
  match r with
  | Except.ok k => some k
  | Except.error _ => none

/-- The extension dispatch of `create_source_file` as a function of the
extension alone, used to state that the constructed kind depends on
nothing else. -/
def dispatchKind (extension : String) : Option FileClass :=
  if extension ∈ ["vhd", "vhdl", "vho"] then some FileClass.VHDLFile
  else if extension ∈ ["v", "vh", "vo", "vm"] then some FileClass.VerilogFile
  else if extension = "sv" ∨ extension = "svh" then some FileClass.SVFile
  else if extension = "wb" then some FileClass.WBGenFile
  else if extension = "tcl" then some FileClass.TCLFile
  else if extension = "sdc" then some FileClass.SDCFile
  else
    match XILINX_FILE_DICT.lookup extension with
    | some k => some k
    | none =>
      match ALTERA_FILE_DICT.lookup extension with
      | some k => some k
      | none =>
        match LATTICE_FILE_DICT.lookup extension with
        | some k => some k
        | none => MICROSEMI_FILE_DICT.lookup extension

/-- The file classes that subclass `SourceFile` and attach a relation
-producing facility at construction (VHDL, Verilog, SystemVerilog, Xilinx
core IP, Altera IP and Qsys); all others subclass the opaque `File`. -/
def isParseable (k : FileClass) : Bool :=
  match k with
  | FileClass.VHDLFile => true
  | FileClass.VerilogFile => true
  | FileClass.SVFile => true
  | FileClass.XCIFile => true
  | FileClass.IPFile => true
  | FileClass.QSYSFile => true
  | _ => false

/-- The role of a dependency relation (`DepRelation.PROVIDE` /
`DepRelation.USE`). -/
inductive RelRole where
  | PROVIDE
  | USE
deriving DecidableEq, Repr

/-- The kind of design unit a relation concerns (`DepRelation.ENTITY`,
`DepRelation.ARCHITECTURE`, `DepRelation.PACKAGE`). -/
inductive RelKind where
  | ENTITY
  | ARCHITECTURE
  | PACKAGE
deriving DecidableEq, Repr

/-- A provide/use fact attached to a source file (`DepRelation`): the
design-unit identity `library.unitName`, the role and the unit kind. -/
structure DepRelation where
  obj_name : String
  direction : RelRole
  rel_type : RelKind
deriving DecidableEq, Repr

/-- Modelled from the spec: `path_mod.pathsplit(path)[-1]`, the final
component of a filesystem path (the utility lives outside the embedded
source files). -/
def pathLastComponent (path : String) : String :=
  String.mk ((splitOnChar '/' path.toList).getLastD [])

/-- Python slicing `s[:-n]` on text: drop the last `n` characters (the
empty string when `n` exceeds the length). -/
def pySliceDropRight (s : String) (n : Nat) : String :=
  String.mk (s.toList.take (s.toList.length - n))

/-- The relations synthesized by `IPFile.__init__`: with
`library = entity = filename[:-3]`, a single
`DepRelation(library.entity, PROVIDE, ENTITY)` is added. -/
def ipFileRelations (path : String) : List DepRelation :=
  let filename := pathLastComponent path
  let library := pySliceDropRight filename 3
  let entity := pySliceDropRight filename 3
  [DepRelation.mk (library ++ "." ++ entity) RelRole.PROVIDE RelKind.ENTITY]

/-- Word characters of the byte regular expression
`[\w_\d]+` (ASCII letters, digits and underscore). -/
def isWordChar (c : Char) : Bool :=
  (('a' ≤ c) && (c ≤ 'z')) || (('A' ≤ c) && (c ≤ 'Z'))
    || (('0' ≤ c) && (c ≤ '9')) || (c = '_')

/-- The opening tag of the Qsys reference pattern
`<hdlLibraryName>(?P<entity>[\w_\d]+)</hdlLibraryName>`. -/
def qsysOpenTag : List Char := "<hdlLibraryName>".toList

/-- The closing tag of the Qsys reference pattern. -/
def qsysCloseTag : List Char := "</hdlLibraryName>".toList

/-- Strip `p` from the front of `s`, if it is there. -/
def dropPrefixChars : List Char → List Char → Option (List Char)
  | [], s => some s
  | _ :: _, [] => none
  | p :: ps, c :: cs => if c = p then dropPrefixChars ps cs else none

/-- One match attempt of the compiled pattern at the current position:
the opening tag, a nonempty run of word characters, then the closing
tag; on success the captured entity and the rest of the input. -/
def qsysTryMatch (s : List Char) : Option (String × List Char) :=
  match dropPrefixChars qsysOpenTag s with
  | none => none
  | some afterOpen =>
    let word := afterOpen.takeWhile isWordChar
    if word.isEmpty then none
    else
      match dropPrefixChars qsysCloseTag (afterOpen.dropWhile isWordChar) with
      | none => none
      | some rest => some (String.mk word, rest)

/-- The scan loop of `re.finditer`: non-overlapping matches, advancing by
one character past a failed attempt and past the whole match on success.
Fuel bounds the recursion; the caller supplies the content length, which
always suffices since every step consumes at least one character. -/
def qsysScanAux : Nat → List Char → List String
  | 0, _ => []
  | _ + 1, [] => []
  | fuel + 1, c :: cs =>
    match qsysTryMatch (c :: cs) with
    | some (ent, rest) => ent :: qsysScanAux fuel rest
    | none => qsysScanAux fuel cs

/-- The entities captured by scanning the file content for the pattern
`<hdlLibraryName>(?P<entity>[\w_\d]+)</hdlLibraryName>`. -/
def qsysScan (content : String) : List String :=
  qsysScanAux content.length content.toList

/-- The relations synthesized by `QSYSFile.__init__`: with
`library = entity = filename[:-5]`, a PROVIDE ENTITY and a PROVIDE
ARCHITECTURE for `library.entity`, then one USE ENTITY `e.e` per entity
`e` captured by the content scan, in scan order. -/
def qsysFileRelations (path content : String) : List DepRelation :=
  let filename := pathLastComponent path
  let library := pySliceDropRight filename 5
  let entity := pySliceDropRight filename 5
  let obj := library ++ "." ++ entity
  [DepRelation.mk obj RelRole.PROVIDE RelKind.ENTITY,
   DepRelation.mk obj RelRole.PROVIDE RelKind.ARCHITECTURE]
    ++ (qsysScan content).map
        (fun e => DepRelation.mk (e ++ "." ++ e) RelRole.USE RelKind.ENTITY)

/-- One embedded occurrence of the reference pattern. -/
def qsysBlock (e : String) : String :=
  "<hdlLibraryName>" ++ e ++ "</hdlLibraryName>"

/-- A Qsys file content interleaving filler text and embedded references:
each pair contributes its filler followed by one tagged entity, and
`lastF` closes the content. -/
def qsysContentStr : List (String × String) → String → String
  | [], lastF => lastF
  | (f, e) :: ps, lastF => f ++ (qsysBlock e ++ qsysContentStr ps lastF)

/-- Concrete diamond graph for exercising the fetch model: the root
declares modules a and b, and both declare the same sub-module c by
identical resolved path. -/
def modRoot : Module :=
  { url := "u-root", path := "p-root", source := SourceKind.git }

/-- Module a of the diamond. -/
def modA : Module :=
  { url := "u-a", path := "p-a", source := SourceKind.git,
    manifestDict := some [("fetch_pre_cmd", "echo pre")] }

/-- Module b of the diamond. -/
def modB : Module :=
  { url := "u-b", path := "p-b", source := SourceKind.gitsm }

/-- Module c, referenced by both a and b. -/
def modC : Module :=
  { url := "u-c", path := "p-c", source := SourceKind.svn }

/-- The diamond environment with an always-succeeding backend. -/
def envDiamond : FetchEnv :=
  { children := fun p =>
      if p = "p-root" then [modA, modB]
      else if p = "p-a" then [modC]
      else if p = "p-b" then [modC]
      else [],
    fetchOk := fun _ => true }

/-- An environment whose backend always fails. -/
def envFail : FetchEnv :=
  { children := fun _ => [], fetchOk := fun _ => false }

/-- A mid-run state: the root is fetched, module a is queued. -/
def stA : FetchState :=
  { queue := [modA], fetched := ["p-root"], pool := [modRoot, modA],
    calls := [], err := none }

/-- A state with module c queued and nothing fetched, for exercising the
failing backend. -/
def stC : FetchState :=
  { queue := [modC], fetched := [], pool := [modC], calls := [], err := none }

/-- Trivial path utilities for concrete runs of `init_config`. -/
def pu0 : PathUtil :=
  { svn_parse := fun u => (u, none),
    url_parse := fun u => RemoteUrlParts.mk u none none none,
    svn_basename := fun u => u,
    url_basename := fun u => u,
    relpath := fun s => s,
    abspath_join := fun a b => a ++ "/" ++ b }

/-- A small filesystem: the local path `m` exists, and the remote fetch
path `fetchto/u-r` exists with one entry. -/
def fs0 : FileSys :=
  { pathExists := fun s => s == "m" || s == "fetchto/u-r",
    listdir := fun s => if s == "fetchto/u-r" then ["Manifest.py"] else [] }

/-- Arguments of a local module at the existing path `m`. -/
def argsLocal0 : ModuleArgs :=
  { parent := some "top", url := "m", source := SourceKind.localSrc,
    fetchto := "fetchto" }

/-- Arguments of a remote git module with url `u-r`. -/
def argsRemote0 : ModuleArgs :=
  { parent := some "top", url := "u-r", source := SourceKind.git,
    fetchto := "fetchto" }

/-- A concrete `os.path.abspath` oracle: the process runs with current
working directory `/cwd`, which contains no dot. -/
def absp0 (path : String) : String := "/cwd/" ++ path

theorem registerModule_registers (pool : List Module) (m : Module) :
    pathRegistered (registerModule pool m) m.path = true := by
  unfold registerModule pathRegistered
  split
  · assumption
  · simp [List.any_append]

theorem registerModule_mono (pool : List Module) (m : Module) (p : String)
    (h : pathRegistered pool p = true) :
    pathRegistered (registerModule pool m) p = true := by
  unfold registerModule pathRegistered
  split
  · exact h
  · simp only [List.any_append, Bool.or_eq_true]
    exact Or.inl h

theorem processChildren_cons (fetched : List String) (c : Module)
    (cs : List Module) (pool queue : List Module) :
    processChildren fetched (c :: cs) pool queue =
      if fetched.contains c.path then
        processChildren fetched cs (registerModule pool c) queue
      else
        processChildren fetched cs (registerModule pool c) (c :: queue) := by
  simp only [processChildren, List.foldl_cons, processChild]
  split <;> rfl

theorem processChildren_pool_mono (fetched : List String)
    (children : List Module) (pool queue : List Module) (p : String)
    (h : pathRegistered pool p = true) :
    pathRegistered (processChildren fetched children pool queue).1 p = true := by
  induction children generalizing pool queue with
  | nil => exact h
  | cons c cs ih =>
    rw [processChildren_cons]
    split
    · exact ih _ _ (registerModule_mono pool c p h)
    · exact ih _ _ (registerModule_mono pool c p h)

theorem processChildren_registers (fetched : List String)
    (children : List Module) (pool queue : List Module) :
    ∀ c ∈ children,
      pathRegistered (processChildren fetched children pool queue).1 c.path = true := by
  induction children generalizing pool queue with
  | nil => intro c hc; cases hc
  | cons d ds ih =>
    intro c hc
    rw [processChildren_cons]
    rcases List.mem_cons.mp hc with hceq | hcmem
    · subst hceq
      split
      · exact processChildren_pool_mono _ _ _ _ _ (registerModule_registers pool c)
      · exact processChildren_pool_mono _ _ _ _ _ (registerModule_registers pool c)
    · split
      · exact ih _ _ c hcmem
      · exact ih _ _ c hcmem

theorem processChildren_queue (fetched : List String)
    (children : List Module) (pool queue : List Module) :
    (processChildren fetched children pool queue).2 =
      (children.filter (fun c => !(fetched.contains c.path))).reverse ++ queue := by
  induction children generalizing pool queue with
  | nil => simp [processChildren]
  | cons c cs ih =>
    rw [processChildren_cons]
    by_cases hc : fetched.contains c.path = true
    · have hc2 : c.path ∈ fetched := by simpa using hc
      rw [if_pos hc, ih]
      simp [List.filter_cons, hc2]
    · have hc2 : c.path ∉ fetched := by simpa using hc
      rw [if_neg hc, ih]
      simp [List.filter_cons, hc2]

theorem step_eq_cached (env : FetchEnv) (st : FetchState) (cur : Module)
    (rest : List Module) (herr : st.err = none) (hq : st.queue = cur :: rest)
    (hf : st.fetched.contains cur.path = true) :
    step env st =
      { st with
        queue := (processChildren st.fetched (env.children cur.path) st.pool rest).2,
        pool := (processChildren st.fetched (env.children cur.path) st.pool rest).1 } := by
  have hf2 : cur.path ∈ st.fetched := by simpa using hf
  unfold step
  rw [herr, hq]
  simp [hf2]

theorem step_eq_fetch_ok (env : FetchEnv) (st : FetchState) (cur : Module)
    (rest : List Module) (herr : st.err = none) (hq : st.queue = cur :: rest)
    (hf : st.fetched.contains cur.path = false)
    (hok : env.fetchOk cur.path = true) :
    step env st =
      { queue := (processChildren (cur.path :: st.fetched)
                    (env.children cur.path) st.pool rest).2,
        fetched := cur.path :: st.fetched,
        pool := (processChildren (cur.path :: st.fetched)
                    (env.children cur.path) st.pool rest).1,
        calls := st.calls ++ [cur.path],
        err := none } := by
  have hf2 : cur.path ∉ st.fetched := by simpa using hf
  unfold step
  rw [herr, hq]
  simp [hf2, hok]

theorem step_eq_fetch_fail (env : FetchEnv) (st : FetchState) (cur : Module)
    (rest : List Module) (herr : st.err = none) (hq : st.queue = cur :: rest)
    (hf : st.fetched.contains cur.path = false)
    (hok : env.fetchOk cur.path = false) :
    step env st =
      { st with
        queue := rest,
        calls := st.calls ++ [cur.path],
        err := some (FetchErr.mk "Unable to fetch module %s" cur.url) } := by
  have hf2 : cur.path ∉ st.fetched := by simpa using hf
  unfold step
  rw [herr, hq]
  simp [hf2, hok]

theorem step_eq_empty (env : FetchEnv) (st : FetchState)
    (herr : st.err = none) (hq : st.queue = []) : step env st = st := by
  unfold step
  rw [herr, hq]

theorem step_halted (env : FetchEnv) (st : FetchState)
    (h : st.err ≠ none) : step env st = st := by
  unfold step
  match herr : st.err with
  | some e => rfl
  | none => exact absurd herr h

theorem contains_mono_cons (f : List String) (q p : String)
    (h : f.contains p = true) : (q :: f).contains p = true := by
  simp only [List.contains_cons, Bool.or_eq_true]
  exact Or.inr h

theorem step_preserves_inv (env : FetchEnv) (st : FetchState)
    (h : fetchInv st) : fetchInv (step env st) := by
  obtain ⟨hnd, hsub⟩ := h
  match herr : st.err with
  | some e =>
    rw [step_halted env st (by simp [herr])]
    exact ⟨hnd, hsub⟩
  | none =>
    match hq : st.queue with
    | [] =>
      rw [step_eq_empty env st herr hq]
      exact ⟨hnd, hsub⟩
    | cur :: rest =>
      match hf : st.fetched.contains cur.path with
      | true =>
        rw [step_eq_cached env st cur rest herr hq hf]
        exact ⟨hnd, fun _ => hsub herr⟩
      | false =>
        have hnotin : cur.path ∉ st.calls := by
          intro hmem
          have hcontr := hsub herr cur.path hmem
          rw [hf] at hcontr
          exact Bool.false_ne_true hcontr
        match hok : env.fetchOk cur.path with
        | true =>
          rw [step_eq_fetch_ok env st cur rest herr hq hf hok]
          constructor
          · simp [List.nodup_append, hnd, hnotin]
          · intro _ p hp
            rcases List.mem_append.mp hp with hpl | hpr
            · exact contains_mono_cons _ _ _ (hsub herr p hpl)
            · simp only [List.mem_singleton] at hpr
              subst hpr
              simp [List.contains_cons]
        | false =>
          rw [step_eq_fetch_fail env st cur rest herr hq hf hok]
          constructor
          · simp [List.nodup_append, hnd, hnotin]
          · intro habs
            simp at habs

theorem fetchAll_preserves_inv (env : FetchEnv) (fuel : Nat) (st : FetchState)
    (h : fetchInv st) : fetchInv (fetchAll env fuel st) := by
  induction fuel generalizing st with
  | zero => exact h
  | succ n ih => exact ih _ (step_preserves_inv env st h)

theorem fetchAll_halted (env : FetchEnv) (fuel : Nat) (st : FetchState)
    (h : st.err ≠ none) : fetchAll env fuel st = st := by
  induction fuel with
  | zero => rfl
  | succ n ih =>
    show fetchAll env n (step env st) = st
    rw [step_halted env st h, ih]

/-- Claim C1: during a run of `_fetch_all`, the backend fetch operation is
invoked at most once per resolved module path, for every module graph —
including diamonds where two distinct modules reference the same
sub-module by identical resolved path.  The log of backend invocations of
any run started with an empty log has no duplicate path. -/
theorem fetchAll_at_most_once_per_path (env : FetchEnv) (fuel : Nat)
    (queue : List Module) (fetched : List String) (pool : List Module) :
    ((fetchAll env fuel
        { queue := queue, fetched := fetched, pool := pool,
          calls := [], err := none }).calls).Nodup := by
  have h0 : fetchInv
      { queue := queue, fetched := fetched, pool := pool, calls := [], err := none } := by
    constructor
    · exact List.nodup_nil
    · intro _ p hp
      cases hp
  exact (fetchAll_preserves_inv env fuel _ h0).1

/-- Witness for C1: a full run over the concrete diamond graph, where two
modules (a and b) reference the same sub-module c by identical resolved
path. -/
theorem fetchAll_at_most_once_per_path_witness :
    ((fetchAll envDiamond 8
        { queue := [modRoot], fetched := [], pool := [modRoot],
          calls := [], err := none }).calls).Nodup :=
  fetchAll_at_most_once_per_path envDiamond 8 [modRoot] [] [modRoot]

/-- Claim C2: after a module is successfully fetched and its manifest
parsed, every declared child that is not yet fetched is registered in the
module set and pushed onto the work queue, while every already fetched
child is recorded in the module set but not queued: the queue gains
exactly the unfetched children (in stack order), and the path of every child
ends up registered in the pool. -/
theorem fetch_registers_and_queues_children (env : FetchEnv) (st : FetchState)
    (cur : Module) (rest : List Module)
    (herr : st.err = none) (hq : st.queue = cur :: rest)
    (hunf : st.fetched.contains cur.path = false)
    (hok : env.fetchOk cur.path = true) :
    (step env st).queue =
      ((env.children cur.path).filter
        (fun c => !((cur.path :: st.fetched).contains c.path))).reverse ++ rest ∧
    ∀ c ∈ env.children cur.path,
      pathRegistered ((step env st).pool) c.path = true := by
  rw [step_eq_fetch_ok env st cur rest herr hq hunf hok]
  constructor
  · exact processChildren_queue _ _ _ _
  · intro c hc
    exact processChildren_registers _ _ _ _ c hc

/-- Witness for C2 at the concrete diamond state: fetching module a
discovers its declared child c, which is registered and queued. -/
theorem fetch_registers_and_queues_children_witness :
    (step envDiamond stA).queue =
      ((envDiamond.children modA.path).filter
        (fun c => !((modA.path :: stA.fetched).contains c.path))).reverse ++ [] ∧
    ∀ c ∈ envDiamond.children modA.path,
      pathRegistered ((step envDiamond stA).pool) c.path = true :=
  fetch_registers_and_queues_children envDiamond stA modA [] rfl rfl (by decide) rfl

/-- Claim C3: when the backend fetch of a popped unfetched module returns
false, the whole resolution aborts with a fatal error naming the
url of the offending module — the recorded exception is
`("Unable to fetch module %s", url)` — after exactly one backend call for
it (no retry), and every further loop iteration leaves the state
unchanged (no partial continuation). -/
theorem fetch_failure_fatal_names_url (env : FetchEnv) (st : FetchState)
    (cur : Module) (rest : List Module)
    (herr : st.err = none) (hq : st.queue = cur :: rest)
    (hunf : st.fetched.contains cur.path = false)
    (hfail : env.fetchOk cur.path = false) :
    (step env st).err = some (FetchErr.mk "Unable to fetch module %s" cur.url) ∧
    (step env st).calls = st.calls ++ [cur.path] ∧
    ∀ fuel, fetchAll env fuel (step env st) = step env st := by
  rw [step_eq_fetch_fail env st cur rest herr hq hunf hfail]
  refine ⟨rfl, rfl, ?_⟩
  intro fuel
  apply fetchAll_halted
  simp

/-- Witness for C3: the failing backend on the concrete module c. -/
theorem fetch_failure_fatal_names_url_witness :
    (step envFail stC).err = some (FetchErr.mk "Unable to fetch module %s" modC.url) ∧
    (step envFail stC).calls = stC.calls ++ [modC.path] ∧
    ∀ fuel, fetchAll envFail fuel (step envFail stC) = step envFail stC :=
  fetch_failure_fatal_names_url envFail stC modC [] rfl rfl (by decide) rfl

theorem init_config_local_eq (pu : PathUtil) (fs : FileSys) (args : ModuleArgs)
    (h : args.source = SourceKind.localSrc) :
    init_config pu fs args =
      if fs.pathExists args.url then
        Except.ok (ModuleConfigState.mk args.source args.url none none
          (pu.relpath args.url) true none)
      else
        Except.error (ConfigErr.localPathMissing args.url args.parent) := by
  unfold init_config
  rw [if_neg (by simp [h])]

theorem init_config_disk_flag (src : SourceKind) (u : String)
    (b r lo : Option String) (p : String) (fs : FileSys) :
    ∃ st : ModuleConfigState,
      (if fs.pathExists p && !(fs.listdir p).isEmpty then
         Except.ok (ModuleConfigState.mk src u b r p true lo)
       else
         Except.ok (ModuleConfigState.mk src u b r p false lo)) =
        (Except.ok st : Except ConfigErr ModuleConfigState) ∧
      st.isfetched = (fs.pathExists st.path && !(fs.listdir st.path).isEmpty) := by
  by_cases hfe : (fs.pathExists p && !(fs.listdir p).isEmpty) = true
  · refine ⟨ModuleConfigState.mk src u b r p true lo, ?_, ?_⟩
    · rw [if_pos hfe]
    · simpa using hfe.symm
  · have hfe2 : (fs.pathExists p && !(fs.listdir p).isEmpty) = false := by
      simpa using hfe
    refine ⟨ModuleConfigState.mk src u b r p false lo, ?_, ?_⟩
    · rw [if_neg hfe]
    · simpa using hfe2.symm

theorem init_config_remote_ok (pu : PathUtil) (fs : FileSys) (args : ModuleArgs)
    (h : args.source ≠ SourceKind.localSrc) :
    ∃ st, init_config pu fs args = Except.ok st ∧
      st.isfetched = (fs.pathExists st.path && !(fs.listdir st.path).isEmpty) := by
  unfold init_config
  rw [if_pos h]
  exact init_config_disk_flag _ _ _ _ _ _ fs

/-- Claim C4: after `init_config`, a local module raises an exception
exactly when its declared url path does not exist and otherwise ends up
fetched; a remote module never raises and ends up fetched exactly when
the resolved path exists and lists at least one directory entry. -/
theorem init_config_fetch_state (pu : PathUtil) (fs : FileSys) (args : ModuleArgs) :
    (args.source = SourceKind.localSrc →
      (exceptIsOk (init_config pu fs args) = true ↔ fs.pathExists args.url = true) ∧
      ∀ st, init_config pu fs args = Except.ok st → st.isfetched = true) ∧
    (args.source ≠ SourceKind.localSrc →
      ∃ st, init_config pu fs args = Except.ok st ∧
        st.isfetched = (fs.pathExists st.path && !(fs.listdir st.path).isEmpty)) := by
  constructor
  · intro hloc
    have hrw := init_config_local_eq pu fs args hloc
    by_cases hex : fs.pathExists args.url = true
    · rw [hrw, if_pos hex]
      constructor
      · simp [exceptIsOk, hex]
      · intro st hst
        injection hst with h2
        rw [← h2]
    · have hex2 : fs.pathExists args.url = false := by simpa using hex
      rw [hrw, if_neg hex]
      constructor
      · simp [exceptIsOk, hex2]
      · intro st hst
        exact Except.noConfusion hst
  · intro hrem
    exact init_config_remote_ok pu fs args hrem

/-- Witness for C4: a local module at an existing path, and a remote git
module whose fetch directory holds one entry. -/
theorem init_config_fetch_state_witness :
    ((exceptIsOk (init_config pu0 fs0 argsLocal0) = true ↔
        fs0.pathExists argsLocal0.url = true) ∧
      ∀ st, init_config pu0 fs0 argsLocal0 = Except.ok st → st.isfetched = true) ∧
    (∃ st, init_config pu0 fs0 argsRemote0 = Except.ok st ∧
      st.isfetched = (fs0.pathExists st.path && !(fs0.listdir st.path).isEmpty)) :=
  ⟨(init_config_fetch_state pu0 fs0 argsLocal0).1 rfl,
   (init_config_fetch_state pu0 fs0 argsRemote0).2 (by decide)⟩

theorem inheritedLibrary_const (L : String) (dicts : List (List (String × String)))
    (h : ∀ d ∈ dicts, d.lookup "library" = none) : inheritedLibrary L dicts = L := by
  induction dicts generalizing L with
  | nil => rfl
  | cons d ds ih =>
    have hd : d.lookup "library" = none := h d (by simp)
    have hstep : process_manifest_universal_library none d (some L) = L := by
      simp [process_manifest_universal_library, hd]
    simp only [inheritedLibrary, List.foldl_cons] at ih ⊢
    rw [hstep]
    exact ih L (fun d2 hd2 => h d2 (List.mem_cons_of_mem d hd2))

/-- Claim C5: library resolution is transitive down the module tree with
precedence — explicit override beats the manifest `library` key, which
beats the library of the parent module, which beats the default work; a
chain of manifests with no `library` key inherits the root library all
the way down, and a source file constructed with no library defaults to
`"work"`. -/
theorem library_resolution_precedence :
    (∀ o d p, process_manifest_universal_library (some o) d p = o) ∧
    (∀ d p l, d.lookup "library" = some l →
      process_manifest_universal_library none d p = l) ∧
    (∀ d p, d.lookup "library" = none →
      process_manifest_universal_library none d (some p) = p) ∧
    (∀ d, d.lookup "library" = none →
      process_manifest_universal_library none d none = "work") ∧
    (∀ L dicts, (∀ d ∈ dicts, d.lookup "library" = none) →
      inheritedLibrary L dicts = L) ∧
    sourceFileLibrary none = "work" := by
  refine ⟨?_, ?_, ?_, ?_, ?_, rfl⟩
  · intro o d p
    rfl
  · intro d p l h
    simp [process_manifest_universal_library, h]
  · intro d p h
    simp [process_manifest_universal_library, h]
  · intro d h
    simp [process_manifest_universal_library, h]
  · intro L dicts h
    exact inheritedLibrary_const L dicts h

/-- Witness for C5 at concrete manifests. -/
theorem library_resolution_precedence_witness :
    process_manifest_universal_library (some "over")
      [("library", "manlib")] (some "parlib") = "over" ∧
    process_manifest_universal_library none
      [("library", "manlib")] (some "parlib") = "manlib" ∧
    process_manifest_universal_library none
      [("action", "simulation")] (some "parlib") = "parlib" ∧
    process_manifest_universal_library none [] none = "work" ∧
    inheritedLibrary "rootlib" [[], [("action", "x")]] = "rootlib" ∧
    sourceFileLibrary none = "work" :=
  ⟨library_resolution_precedence.1 "over" [("library", "manlib")] (some "parlib"),
   library_resolution_precedence.2.1 [("library", "manlib")] (some "parlib") "manlib"
     (by decide),
   library_resolution_precedence.2.2.1 [("action", "simulation")] "parlib" (by decide),
   library_resolution_precedence.2.2.2.1 [] (by decide),
   library_resolution_precedence.2.2.2.2.1 "rootlib" [[], [("action", "x")]] (by decide),
   library_resolution_precedence.2.2.2.2.2⟩

/-- Claim C6: `clean` removes from disk exactly the modules that are both
fetched and version-controlled, in reverse discovery order — the removal
list holds exactly those modules, and the most recently discovered
qualifying module is removed first; everything else (local or unfetched)
is absent from the removal list. -/
theorem clean_removes_exactly_vcs_fetched_reverse :
    (∀ fetched mods (m : Module),
      m ∈ cleanRemoveList fetched mods ↔
        m ∈ mods ∧ vcsSources.contains m.source = true ∧
          fetched.contains m.path = true) ∧
    (∀ fetched mods m,
      cleanRemoveList fetched (mods ++ [m]) =
        (if cleanPred fetched m then [m] else []) ++ cleanRemoveList fetched mods) := by
  constructor
  · intro fetched mods m
    unfold cleanRemoveList
    rw [List.mem_reverse, List.mem_filter]
    simp [cleanPred, Bool.and_eq_true, and_assoc]
  · intro fetched mods m
    unfold cleanRemoveList
    rw [List.filter_append, List.reverse_append]
    by_cases hm : cleanPred fetched m = true
    · simp [hm]
    · have hm2 : cleanPred fetched m = false := by simpa using hm
      simp [hm2]

/-- Witness for C6 on the linear chain root, a, b, all fetched. -/
theorem clean_removes_exactly_vcs_fetched_reverse_witness :
    (modA ∈ cleanRemoveList ["p-root", "p-a", "p-b"] [modRoot, modA, modB] ↔
      modA ∈ [modRoot, modA, modB] ∧ vcsSources.contains modA.source = true ∧
        (["p-root", "p-a", "p-b"] : List String).contains modA.path = true) ∧
    cleanRemoveList ["p-root", "p-a", "p-b"] ([modRoot, modA] ++ [modB]) =
      (if cleanPred ["p-root", "p-a", "p-b"] modB then [modB] else []) ++
        cleanRemoveList ["p-root", "p-a", "p-b"] [modRoot, modA] :=
  ⟨clean_removes_exactly_vcs_fetched_reverse.1 ["p-root", "p-a", "p-b"]
     [modRoot, modA, modB] modA,
   clean_removes_exactly_vcs_fetched_reverse.2 ["p-root", "p-a", "p-b"]
     [modRoot, modA] modB⟩

theorem hookCmds_cons (key : String) (fetched : List String) (m : Module)
    (ms : List Module) :
    hookCmds key fetched (m :: ms) =
      (if hookQualifies key fetched m then [hookCmd key m] else []) ++
        hookCmds key fetched ms := by
  by_cases hc : fetched.contains m.path = true
  · have hcm : m.path ∈ fetched := by simpa using hc
    match hmd : m.manifestDict with
    | none =>
      have hq : hookQualifies key fetched m = false := by
        simp [hookQualifies, hmd]
      simp [hookCmds, List.filterMap_cons, hcm, hmd, hq]
    | some d =>
      match hl : d.lookup key with
      | none =>
        have hq : hookQualifies key fetched m = false := by
          simp [hookQualifies, hmd, hl]
        simp [hookCmds, List.filterMap_cons, hcm, hmd, hl, hq]
      | some cmd =>
        have hq : hookQualifies key fetched m = true := by
          simp [hookQualifies, hmd, hcm, hl]
        simp [hookCmds, List.filterMap_cons, hcm, hmd, hl, hq, hookCmd]
  · have hcm : m.path ∉ fetched := by simpa using hc
    have hq : hookQualifies key fetched m = false := by
      simp [hookQualifies]
      intro habs
      exact absurd habs hcm
    simp [hookCmds, List.filterMap_cons, hcm, hq]

theorem hookCmds_eq (key : String) (fetched : List String) (mods : List Module) :
    hookCmds key fetched mods =
      (mods.filter (hookQualifies key fetched)).map (hookCmd key) := by
  induction mods with
  | nil => rfl
  | cons m ms ih =>
    rw [hookCmds_cons, List.filter_cons, ih]
    by_cases hq : hookQualifies key fetched m = true
    · rw [if_pos hq, if_pos hq]
      simp
    · rw [if_neg hq, if_neg hq]
      simp

/-- Claim C7: during the fetch action the pre and post shell hooks run
exactly once for each module that is already fetched (before respectively
after `_fetch_all`) and carries the directive in its manifest — the
command list is the image of exactly those modules — and the exit status
returned by the shell is discarded: the issued commands and the final
resolver state are identical under any two `os.system` oracles. -/
theorem fetch_hooks_only_fetched_with_directive :
    (∀ key fetched mods,
      hookCmds key fetched mods =
        (mods.filter (hookQualifies key fetched)).map (hookCmd key)) ∧
    (∀ env fuel st sys1 sys2,
      (fetchActionRun env fuel st sys1).1.map Prod.fst =
        (fetchActionRun env fuel st sys2).1.map Prod.fst ∧
      (fetchActionRun env fuel st sys1).2.1 =
        (fetchActionRun env fuel st sys2).2.1 ∧
      (fetchActionRun env fuel st sys1).2.2.map Prod.fst =
        (fetchActionRun env fuel st sys2).2.2.map Prod.fst) := by
  constructor
  · exact hookCmds_eq
  · intro env fuel st sys1 sys2
    refine ⟨?_, rfl, ?_⟩ <;>
      simp [fetchActionRun, List.map_map, Function.comp]

/-- Witness for C7 at the concrete diamond state. -/
theorem fetch_hooks_only_fetched_with_directive_witness :
    hookCmds "fetch_pre_cmd" stA.fetched stA.pool =
      (stA.pool.filter (hookQualifies "fetch_pre_cmd" stA.fetched)).map
        (hookCmd "fetch_pre_cmd") ∧
    (fetchActionRun envDiamond 4 stA (fun _ => 0)).2.1 =
      (fetchActionRun envDiamond 4 stA (fun _ => 1)).2.1 :=
  ⟨fetch_hooks_only_fetched_with_directive.1 "fetch_pre_cmd" stA.fetched stA.pool,
   (fetch_hooks_only_fetched_with_directive.2 envDiamond 4 stA
     (fun _ => 0) (fun _ => 1)).2.1⟩

theorem create_source_file_eq_dispatch (abspath : String → String)
    (p p2 : String) (hp : p ≠ "")
    (hp2 : (if pyIsAbs p then p else abspath p) = p2) :
    create_source_file abspath p =
      match dispatchKind (extensionOf p2) with
      | some k => Except.ok k
      | none => Except.error (SrcFileErr.unknownExtension p2 (extensionOf p2)) := by
  unfold create_source_file dispatchKind
  rw [if_neg hp]
  dsimp only
  rw [hp2]
  split_ifs <;>
    first
      | rfl
      | (generalize XILINX_FILE_DICT.lookup (extensionOf p2) = oX
         generalize ALTERA_FILE_DICT.lookup (extensionOf p2) = oA
         generalize LATTICE_FILE_DICT.lookup (extensionOf p2) = oL
         generalize MICROSEMI_FILE_DICT.lookup (extensionOf p2) = oM
         cases oX <;> cases oA <;> cases oL <;> cases oM <;> rfl)

theorem recognizedExt_eq_isSome (e : String) :
    recognizedExt e = (dispatchKind e).isSome := by
  unfold recognizedExt dispatchKind
  split_ifs <;>
    (generalize XILINX_FILE_DICT.lookup e = oX
     generalize ALTERA_FILE_DICT.lookup e = oA
     generalize LATTICE_FILE_DICT.lookup e = oL
     generalize MICROSEMI_FILE_DICT.lookup e = oM
     cases oX <;> cases oA <;> cases oL <;> cases oM <;> simp_all)

/-- Counterexample for C8 as stated: the relative paths `vhd` and `x.vhd`
share the input extension `vhd` (a recognized extension), yet under a
working directory `/cwd` the program absolutizes them first
(srcfile.py:418-419), so `x.vhd` constructs a VHDLFile while the dotless
`vhd` gets the extension `/cwd/vhd` and raises the unknown-extension
error — the kind is not determined by the input extension alone, and a
recognized input extension can still be a hard error. -/
theorem create_source_file_ext_dispatch_cex :
    extensionOf "vhd" = extensionOf "x.vhd" ∧
    recognizedExt (extensionOf "vhd") = true ∧
    okKind (create_source_file absp0 "x.vhd") = some FileClass.VHDLFile ∧
    okKind (create_source_file absp0 "vhd") = none ∧
    create_source_file absp0 "vhd" =
      Except.error (SrcFileErr.unknownExtension "/cwd/vhd" "/cwd/vhd") :=
  ⟨rfl, rfl, rfl, rfl, rfl⟩

/-- Claim C8 (amended): for absolute input paths — on which the
absolutization step of srcfile.py:418-419 is the identity —
`create_source_file` determines the constructed file kind solely from
the extension of the path, and raises a hard error for every extension
outside the recognized mapping, succeeding exactly on the recognized
extensions; a relative path is first absolutized against the working
directory, so its outcome is governed by the extension of the
absolutized path instead. -/
theorem create_source_file_ext_dispatch :
    (∀ (abspath : String → String) (p q : String), p ≠ "" → q ≠ "" →
      pyIsAbs p = true → pyIsAbs q = true → extensionOf p = extensionOf q →
      okKind (create_source_file abspath p) = okKind (create_source_file abspath q)) ∧
    (∀ (abspath : String → String) (p : String), p ≠ "" → pyIsAbs p = true →
      recognizedExt (extensionOf p) = false →
      create_source_file abspath p =
        Except.error (SrcFileErr.unknownExtension p (extensionOf p))) ∧
    (∀ (abspath : String → String) (p : String), p ≠ "" → pyIsAbs p = true →
      (okKind (create_source_file abspath p)).isSome = recognizedExt (extensionOf p)) := by
  refine ⟨?_, ?_, ?_⟩
  · intro abspath p q hp hq hpa hqa hpq
    rw [create_source_file_eq_dispatch abspath p p hp (if_pos hpa),
      create_source_file_eq_dispatch abspath q q hq (if_pos hqa), hpq]
    cases dispatchKind (extensionOf q) <;> rfl
  · intro abspath p hp hpa hrec
    rw [recognizedExt_eq_isSome] at hrec
    rw [create_source_file_eq_dispatch abspath p p hp (if_pos hpa)]
    match hd : dispatchKind (extensionOf p) with
    | none => rfl
    | some k =>
      rw [hd] at hrec
      exact absurd hrec (by simp)
  · intro abspath p hp hpa
    rw [create_source_file_eq_dispatch abspath p p hp (if_pos hpa),
      recognizedExt_eq_isSome]
    cases dispatchKind (extensionOf p) <;> rfl

/-- Witness for C8: two absolute paths sharing the `vhd` extension, an
absolute path with the unrecognized extension `zzz`, and a recognized
Altera extension. -/
theorem create_source_file_ext_dispatch_witness :
    okKind (create_source_file absp0 "/x.vhd") =
      okKind (create_source_file absp0 "/sub/y.vhd") ∧
    create_source_file absp0 "/x.zzz" =
      Except.error (SrcFileErr.unknownExtension "/x.zzz" (extensionOf "/x.zzz")) ∧
    (okKind (create_source_file absp0 "/x.qip")).isSome =
      recognizedExt (extensionOf "/x.qip") :=
  ⟨create_source_file_ext_dispatch.1 absp0 "/x.vhd" "/sub/y.vhd"
     (by decide) (by decide) (by decide) (by decide) (by decide),
   create_source_file_ext_dispatch.2.1 absp0 "/x.zzz"
     (by decide) (by decide) (by decide),
   create_source_file_ext_dispatch.2.2 absp0 "/x.qip" (by decide) (by decide)⟩

/-- Counterexample for C10 as stated: the relative path `vho` has input
extension `vho`, yet under a working directory `/cwd` the program
absolutizes it first, computes the extension `/cwd/vho` and raises the
unknown-extension error instead of constructing a VHDLFile. -/
theorem vho_maps_to_vhdl_file_cex :
    extensionOf "vho" = "vho" ∧
    create_source_file absp0 "vho" =
      Except.error (SrcFileErr.unknownExtension "/cwd/vho" "/cwd/vho") :=
  ⟨rfl, rfl⟩

/-- Claim C10 (amended): every nonempty absolute path with extension
`vho` constructs a parseable `VHDLFile`, never the opaque `VHOFile` that
the Xilinx file dictionary also maps `vho` to, because the VHDL
extension branch is tested before the Xilinx dictionary lookup; a
relative path is first absolutized, which can change the extension. -/
theorem vho_maps_to_vhdl_file (abspath : String → String) (p : String)
    (hp : p ≠ "") (hpa : pyIsAbs p = true) (he : extensionOf p = "vho") :
    create_source_file abspath p = Except.ok FileClass.VHDLFile ∧
    XILINX_FILE_DICT.lookup "vho" = some FileClass.VHOFile ∧
    isParseable FileClass.VHDLFile = true ∧
    isParseable FileClass.VHOFile = false := by
  refine ⟨?_, by decide, rfl, rfl⟩
  simp [create_source_file, hp, hpa, he]

/-- Witness for C10 at the concrete absolute path `/a.vho`. -/
theorem vho_maps_to_vhdl_file_witness :
    create_source_file absp0 "/a.vho" = Except.ok FileClass.VHDLFile ∧
    XILINX_FILE_DICT.lookup "vho" = some FileClass.VHOFile ∧
    isParseable FileClass.VHDLFile = true ∧
    isParseable FileClass.VHOFile = false :=
  vho_maps_to_vhdl_file absp0 "/a.vho" (by decide) (by decide) (by decide)

theorem strToList_append (s t : String) :
    (s ++ t).toList = s.toList ++ t.toList := by
  simp [String.toList]

theorem qsysOpenTag_cons : qsysOpenTag = '<' :: "hdlLibraryName>".toList := by
  decide

theorem qsysCloseTag_cons : qsysCloseTag = '<' :: "/hdlLibraryName>".toList := by
  decide

theorem dropPrefixChars_append (p s : List Char) :
    dropPrefixChars p (p ++ s) = some s := by
  induction p with
  | nil => rfl
  | cons c cs ih => simp [dropPrefixChars, ih]

theorem takeWhile_append_stop (pr : Char → Bool) (xs : List Char) (y : Char)
    (ys : List Char) (hxs : ∀ x ∈ xs, pr x = true) (hy : pr y = false) :
    (xs ++ y :: ys).takeWhile pr = xs ∧ (xs ++ y :: ys).dropWhile pr = y :: ys := by
  induction xs with
  | nil =>
    simp only [List.nil_append, List.takeWhile_cons, List.dropWhile_cons, hy]
    simp
  | cons a as ih =>
    have ha : pr a = true := hxs a (by simp)
    have ih2 := ih (fun x hx => hxs x (by simp [hx]))
    simp only [List.cons_append, List.takeWhile_cons, List.dropWhile_cons, ha]
    simp [ih2.1, ih2.2]

theorem qsysTryMatch_block (e : String) (rest : List Char)
    (he : e.toList ≠ []) (hw : ∀ c ∈ e.toList, isWordChar c = true) :
    qsysTryMatch (qsysOpenTag ++ (e.toList ++ (qsysCloseTag ++ rest))) =
      some (e, rest) := by
  unfold qsysTryMatch
  rw [dropPrefixChars_append]
  dsimp only
  rw [qsysCloseTag_cons, List.cons_append]
  have htw := takeWhile_append_stop isWordChar e.toList '<'
    ("/hdlLibraryName>".toList ++ rest) hw (by decide)
  rw [htw.1, htw.2]
  rw [if_neg (fun h => he (by simpa using h))]
  rw [← List.cons_append, ← qsysCloseTag_cons, dropPrefixChars_append]
  rfl

theorem qsysTryMatch_not_lt (c : Char) (cs : List Char) (hc : c ≠ '<') :
    qsysTryMatch (c :: cs) = none := by
  unfold qsysTryMatch
  rw [qsysOpenTag_cons]
  unfold dropPrefixChars
  rw [if_neg hc]

theorem qsysScanAux_skip (f : List Char) (fuel : Nat) (rest : List Char)
    (hf : ∀ c ∈ f, c ≠ '<') :
    qsysScanAux (f.length + fuel) (f ++ rest) = qsysScanAux fuel rest := by
  induction f with
  | nil => simp
  | cons c cs ih =>
    have hc : c ≠ '<' := hf c (by simp)
    have harith : (c :: cs).length + fuel = (cs.length + fuel) + 1 := by
      simp only [List.length_cons]
      omega
    rw [harith, List.cons_append]
    show qsysScanAux ((cs.length + fuel) + 1) (c :: (cs ++ rest)) = _
    simp only [qsysScanAux]
    rw [qsysTryMatch_not_lt c (cs ++ rest) hc]
    exact ih (fun x hx => hf x (by simp [hx]))

theorem qsysScanAux_filler (fuel : Nat) (f : List Char)
    (hf : ∀ c ∈ f, c ≠ '<') : qsysScanAux fuel f = [] := by
  induction fuel generalizing f with
  | zero => rfl
  | succ n ih =>
    cases f with
    | nil => rfl
    | cons c cs =>
      have hc : c ≠ '<' := hf c (by simp)
      simp only [qsysScanAux]
      rw [qsysTryMatch_not_lt c cs hc]
      exact ih cs (fun x hx => hf x (by simp [hx]))

theorem qsysScanAux_block (e : String) (rest : List Char) (fuel : Nat)
    (he : e.toList ≠ []) (hw : ∀ c ∈ e.toList, isWordChar c = true) :
    qsysScanAux (fuel + 1) (qsysOpenTag ++ (e.toList ++ (qsysCloseTag ++ rest))) =
      e :: qsysScanAux fuel rest := by
  rw [qsysOpenTag_cons, List.cons_append]
  simp only [qsysScanAux]
  rw [← List.cons_append, ← qsysOpenTag_cons, qsysTryMatch_block e rest he hw]

theorem qsysContentStr_cons_toList (f e : String) (ps : List (String × String))
    (lastF : String) :
    (qsysContentStr ((f, e) :: ps) lastF).toList =
      f.toList ++
        (qsysOpenTag ++ (e.toList ++ (qsysCloseTag ++ (qsysContentStr ps lastF).toList))) := by
  simp [qsysContentStr, qsysBlock, qsysOpenTag, qsysCloseTag, String.toList]

theorem qsysScanAux_content (ps : List (String × String)) (lastF : String)
    (hfill : ∀ pr ∈ ps, ∀ c ∈ (Prod.fst pr).toList, c ≠ '<')
    (hent : ∀ pr ∈ ps, (Prod.snd pr).toList ≠ [] ∧
      ∀ c ∈ (Prod.snd pr).toList, isWordChar c = true)
    (hlast : ∀ c ∈ lastF.toList, c ≠ '<') :
    ∀ fuel, (qsysContentStr ps lastF).toList.length ≤ fuel →
      qsysScanAux fuel (qsysContentStr ps lastF).toList = ps.map Prod.snd := by
  induction ps with
  | nil =>
    intro fuel _
    exact qsysScanAux_filler fuel _ hlast
  | cons pr ps2 ih =>
    intro fuel hfuel
    obtain ⟨f, e⟩ := pr
    rw [qsysContentStr_cons_toList] at hfuel ⊢
    have hofl : qsysOpenTag.length = 16 := by decide
    have hcfl : qsysCloseTag.length = 17 := by decide
    have hlen := hfuel
    simp only [List.length_append, hofl, hcfl] at hlen
    obtain ⟨fuel2, rfl⟩ : ∃ k, fuel = f.toList.length + k :=
      ⟨fuel - f.toList.length, by omega⟩
    rw [qsysScanAux_skip f.toList fuel2 _ (hfill (f, e) (by simp))]
    obtain ⟨fuel3, rfl⟩ : ∃ k, fuel2 = k + 1 := ⟨fuel2 - 1, by omega⟩
    rw [qsysScanAux_block e _ fuel3 (hent (f, e) (by simp)).1
      (hent (f, e) (by simp)).2]
    have hrest : qsysScanAux fuel3 (qsysContentStr ps2 lastF).toList =
        ps2.map Prod.snd := by
      apply ih (fun pr2 hpr2 => hfill pr2 (by simp [hpr2]))
        (fun pr2 hpr2 => hent pr2 (by simp [hpr2]))
      omega
    rw [hrest]
    rfl

theorem qsysScan_content (ps : List (String × String)) (lastF : String)
    (hfill : ∀ pr ∈ ps, ∀ c ∈ (Prod.fst pr).toList, c ≠ '<')
    (hent : ∀ pr ∈ ps, (Prod.snd pr).toList ≠ [] ∧
      ∀ c ∈ (Prod.snd pr).toList, isWordChar c = true)
    (hlast : ∀ c ∈ lastF.toList, c ≠ '<') :
    qsysScan (qsysContentStr ps lastF) = ps.map Prod.snd := by
  unfold qsysScan
  exact qsysScanAux_content ps lastF hfill hent hlast _ le_rfl

theorem pySliceDropRight_append (S T : String) :
    pySliceDropRight (S ++ T) T.toList.length = S := by
  unfold pySliceDropRight
  rw [strToList_append, List.length_append, Nat.add_sub_cancel, List.take_left]
  rfl

/-- Claim C9: vendor IP and system-integration files synthesize their
relations at construction from filename conventions and a bounded content
scan — an IP file with filename stem S provides exactly the single entity
S.S, and a Qsys file with stem T provides T.T as entity and architecture
and uses one entity E.E per occurrence of the pattern
`<hdlLibraryName>E</hdlLibraryName>` found by the content scan. -/
theorem vendor_ip_qsys_relations (ipPath qsysPath S T lastF : String)
    (ps : List (String × String))
    (hip : pathLastComponent ipPath = S ++ ".ip")
    (hqs : pathLastComponent qsysPath = T ++ ".qsys")
    (hfill : ∀ pr ∈ ps, ∀ c ∈ (Prod.fst pr).toList, c ≠ '<')
    (hent : ∀ pr ∈ ps, (Prod.snd pr).toList ≠ [] ∧
      ∀ c ∈ (Prod.snd pr).toList, isWordChar c = true)
    (hlast : ∀ c ∈ lastF.toList, c ≠ '<') :
    ipFileRelations ipPath =
      [DepRelation.mk (S ++ "." ++ S) RelRole.PROVIDE RelKind.ENTITY] ∧
    qsysFileRelations qsysPath (qsysContentStr ps lastF) =
      [DepRelation.mk (T ++ "." ++ T) RelRole.PROVIDE RelKind.ENTITY,
       DepRelation.mk (T ++ "." ++ T) RelRole.PROVIDE RelKind.ARCHITECTURE]
        ++ ps.map (fun pr =>
            DepRelation.mk (Prod.snd pr ++ "." ++ Prod.snd pr)
              RelRole.USE RelKind.ENTITY) := by
  constructor
  · simp only [ipFileRelations]
    rw [hip]
    rw [show (3 : Nat) = (".ip" : String).toList.length from rfl]
    rw [pySliceDropRight_append]
  · simp only [qsysFileRelations]
    rw [hqs]
    rw [show (5 : Nat) = (".qsys" : String).toList.length from rfl]
    rw [pySliceDropRight_append]
    rw [qsysScan_content ps lastF hfill hent hlast]
    simp [List.map_map, Function.comp]

/-- Witness for C9: an IP file `ips/core.ip` and a Qsys file
`sys/nios.qsys` whose content embeds the entities cpu0 and ram1 between
filler text. -/
theorem vendor_ip_qsys_relations_witness :
    ipFileRelations "ips/core.ip" =
      [DepRelation.mk ("core" ++ "." ++ "core") RelRole.PROVIDE RelKind.ENTITY] ∧
    qsysFileRelations "sys/nios.qsys"
        (qsysContentStr [("a ", "cpu0"), ("b ", "ram1")] " tail") =
      [DepRelation.mk ("nios" ++ "." ++ "nios") RelRole.PROVIDE RelKind.ENTITY,
       DepRelation.mk ("nios" ++ "." ++ "nios") RelRole.PROVIDE RelKind.ARCHITECTURE]
        ++ ([("a ", "cpu0"), ("b ", "ram1")] : List (String × String)).map
            (fun pr =>
              DepRelation.mk (Prod.snd pr ++ "." ++ Prod.snd pr)
                RelRole.USE RelKind.ENTITY) :=
  vendor_ip_qsys_relations "ips/core.ip" "sys/nios.qsys" "core" "nios" " tail"
    [("a ", "cpu0"), ("b ", "ram1")]
    (by decide) (by decide) (by decide) (by decide) (by decide)

end HdlmakeSpec

